import Mathlib

/-
  Verification of the Deobfuscation Engine (DOE) peripheral of the
  Caliptra software emulator (sw-emulator/lib/periph/src/doe.rs).

  The DOE state machine (control-register write handler, poll hook and the
  three operations) is embedded directly from the source.  Its collaborators
  (Clock/Timer, Key Vault, SoC Secret Store, the AES-256-CBC primitive and
  the bus access-size enumeration) live in sibling crates and are modelled
  from the specification at their interface boundary.
-/

namespace Caliptra

/-- Size of the initialization-vector buffer in bytes (DOE_IV_SIZE). -/
def DOE_IV_SIZE : Nat := 16

/-- Number of virtual clock ticks a DOE operation takes (DOE_OP_TICKS). -/
def DOE_OP_TICKS : Nat := 1000

namespace Control

/-- CMD field of the control register: bits 0-1. -/
def CMD (v : Nat) : Nat := v % 4

/-- DEST field of the control register: bits 2-4. -/
def DEST (v : Nat) : Nat := v / 4 % 8

/-- FLOW DONE field of the control register: bit 5. -/
def FLOW_DONE (v : Nat) : Nat := v / 32 % 2

/-- CMD encoding 0b00: idle. -/
def CMD_IDLE : Nat := 0

/-- CMD encoding 0b01: deobfuscate the unique device secret. -/
def CMD_DEOBFUSCATE_UDS : Nat := 1

/-- CMD encoding 0b10: deobfuscate the field entropy. -/
def CMD_DEOBFUSCATE_FE : Nat := 2

/-- CMD encoding 0b11: clear the secrets. -/
def CMD_CLEAR_SECRETS : Nat := 3

/-- Raw register value with only the FLOW DONE bit set; this is the value
`control.reg.write(Control::FLOW_DONE::SET)` stores (tock's `write` replaces
the whole register with the given field value). -/
def FLOW_DONE_SET : Nat := 32

/-- Raw register value with bit 5 cleared and everything else kept:
the effect of `control.reg.modify(Control::FLOW_DONE::CLEAR)`. -/
def clearFlowDone (v : Nat) : Nat := v % 32 + v / 64 * 64

end Control

/-- Modelled from the spec: the bus access sizes of the emulator
(`RvSize` of the emulator's type crate, absent from the sources given):
byte, half-word, word and an invalid size. -/
inductive RvSize where
  | invalid
  | byte
  | halfWord
  | word
deriving DecidableEq, Repr

/-- Modelled from the spec: the bus error causes relevant to the DOE
(`BusError` of the emulator's bus crate, absent from the sources given). -/
inductive BusError where
  | StoreAccessFault
  | StoreAddrMisaligned
  | LoadAccessFault
  | LoadAddrMisaligned
deriving DecidableEq, Repr

/-- Modelled from the spec: the SoC Secret Store collaborator.  It holds the
obfuscated device secret (48 bytes), the obfuscated field entropy (128 bytes)
and the deobfuscation key (32 bytes), each exposed by a read accessor.
Bytes are modelled as natural numbers. -/
structure SocRegisters where
  uds : List Nat
  field_entropy : List Nat
  doe_key : List Nat
deriving DecidableEq, Repr

/-- Modelled from the spec: the Secret Store's destructive clear operation
zeroes the device secret, the deobfuscation key and the field entropy
(widths 48, 32 and 128 bytes as asserted by the repository's tests). -/
def SocRegisters.clear_secrets (_ : SocRegisters) : SocRegisters :=
  { uds := List.replicate 48 0
    field_entropy := List.replicate 128 0
    doe_key := List.replicate 32 0 }

/-- Modelled from the spec: the Key Vault collaborator, an indexed store of
fixed-size key slots with write-by-index and read-by-index. -/
structure KeyVault where
  slots : Nat → List Nat

/-- Modelled from the spec: read the key slot at the given index. -/
def KeyVault.read_key (v : KeyVault) (i : Nat) : List Nat := v.slots i

/-- Modelled from the spec: overwrite the key slot at the given index,
leaving every other slot untouched. -/
def KeyVault.write_key (v : KeyVault) (i : Nat) (data : List Nat) : KeyVault :=
  ⟨fun j => if j = i then data else v.slots j⟩

/-- Modelled from the spec: the AES-256-CBC primitive is out of scope and
trusted; a decryption function is any map from key, IV and ciphertext to a
plaintext byte sequence. -/
def DecryptFn : Type := List Nat → List Nat → List Nat → List Nat

/-- Modelled from the spec: `decrypt(key, iv, ct, &mut out[..n])` writes the
plaintext of `ct` into the first `n` bytes of the output buffer and leaves
the rest of the buffer unchanged. -/
def decryptInto (dec : DecryptFn) (key iv ct out : List Nat) (n : Nat) : List Nat :=
  (dec key iv ct).take n ++ out.drop n

/-- The DOE peripheral state: the IV buffer, the raw 32-bit control
register, the Key Vault and Secret Store collaborators, and the pending
operation-complete timer action.  Modelled from the spec for the timer: a
scheduled action is the absolute virtual tick at which it fires, and at most
one action is outstanding (an `Option`). -/
structure Doe where
  iv : List Nat
  control : Nat
  key_vault : KeyVault
  soc_reg : SocRegisters
  op_complete_action : Option Nat

/-- Modelled from the spec: `Timer.fired(handle)` is true exactly when a
handle is present and virtual time has reached its deadline. -/
def timerFired (now : Nat) (action : Option Nat) : Bool :=
  match action with
  | some t => decide (t ≤ now)
  | none => false

/-- Write handler for the `control` register (`Doe::on_write_control`).
Writes must be word sized, otherwise a store access fault is raised and the
state is untouched.  Otherwise the raw register is set; if the decoded CMD
field is not idle, FLOW DONE is cleared and a poll is scheduled
`DOE_OP_TICKS` ticks from now (modelled from the spec for the timer:
`schedule_poll_in(n)` records the deadline `now + n`, replacing any pending
action). -/
def Doe.on_write_control (now : Nat) (size : RvSize) (val : Nat) (s : Doe) :
    Doe × Option BusError :=
  if size ≠ RvSize.word then
    (s, some BusError.StoreAccessFault)
  else if Control.CMD (val % 2 ^ 32) ≠ Control.CMD_IDLE then
    ({ s with
        control := Control.clearFlowDone (val % 2 ^ 32)
        op_complete_action := some (now + DOE_OP_TICKS) }, none)
  else
    ({ s with control := val % 2 ^ 32 }, none)

/-- Unscramble the unique device secret and store it in the key vault
(`Doe::unscramble_uds`): decrypt the obfuscated secret with the
deobfuscation key and the IV buffer's current contents into the first
`uds.length` bytes of a zeroed 64-byte buffer, then write that buffer into
the vault slot `key_id`. -/
def Doe.unscramble_uds (dec : DecryptFn) (key_id : Nat) (s : Doe) : Doe :=
  { s with
      key_vault := s.key_vault.write_key key_id
        (decryptInto dec s.soc_reg.doe_key s.iv s.soc_reg.uds
          (List.replicate 64 0) s.soc_reg.uds.length) }

/-- Unscramble the field entropy and store it in the key vault
(`Doe::unscramble_fe`): decrypt the first 64 bytes of the obfuscated field
entropy with the deobfuscation key and the IV buffer's current contents into
a 64-byte buffer, then write that buffer into the vault slot `key_id`. -/
def Doe.unscramble_fe (dec : DecryptFn) (key_id : Nat) (s : Doe) : Doe :=
  { s with
      key_vault := s.key_vault.write_key key_id
        (decryptInto dec s.soc_reg.doe_key s.iv (s.soc_reg.field_entropy.take 64)
          (List.replicate 64 0) 64) }

/-- Clear the secrets (`Doe::clear_secrets`): delegate to the Secret
Store's destructive clear. -/
def Doe.clear_secrets (s : Doe) : Doe :=
  { s with soc_reg := s.soc_reg.clear_secrets }

/-- Command dispatch performed when the timer has fired: read DEST, match on
CMD (idle and any unknown encoding are a no-op). -/
def Doe.dispatch (dec : DecryptFn) (s : Doe) : Doe :=
  if Control.CMD s.control = Control.CMD_DEOBFUSCATE_UDS then
    s.unscramble_uds dec (Control.DEST s.control)
  else if Control.CMD s.control = Control.CMD_DEOBFUSCATE_FE then
    s.unscramble_fe dec (Control.DEST s.control)
  else if Control.CMD s.control = Control.CMD_CLEAR_SECRETS then
    s.clear_secrets
  else
    s

/-- Poll hook (`Doe::poll`), called whenever virtual time advances.  If the
pending timer action has fired it is consumed (modelled from the spec:
`fired` clears the handle so it reports true at most once), the command is
dispatched, and the whole control register is overwritten with the FLOW DONE
bit. -/
def Doe.poll (dec : DecryptFn) (now : Nat) (s : Doe) : Doe :=
  if timerFired now s.op_complete_action then
    { Doe.dispatch dec { s with op_complete_action := none } with
        control := Control.FLOW_DONE_SET }
  else
    s

/-- A driver advancing the clock and polling repeatedly: fold the poll hook
over a list of observation times. -/
def Doe.pollSeq (dec : DecryptFn) (ts : List Nat) (s : Doe) : Doe :=
  ts.foldl (fun a t => Doe.poll dec t a) s

/-- The DOE never signals completion from this state: however the driver
advances the clock and polls, FLOW DONE always reads zero. -/
def Doe.neverDone (dec : DecryptFn) (s : Doe) : Prop :=
  ∀ ts : List Nat, Control.FLOW_DONE (Doe.pollSeq dec ts s).control = 0

/-- A sample decryption function for concrete test states: add one to every
ciphertext byte (length preserving, key and IV ignored). -/
def decSample : DecryptFn := fun _ _ ct => ct.map (fun b => (b + 1) % 256)

/-- A sample decryption function that mixes in the first IV byte, so that
runs under different IVs are distinguishable. -/
def decSampleIv : DecryptFn := fun _ iv ct => ct.map (fun b => (b + iv.headI) % 256)

/-- A sample key vault whose slots all hold 64 zero bytes. -/
def vault0 : KeyVault := ⟨fun _ => List.replicate 64 0⟩

/-- A sample secret store with non-zero secrets of the hardware widths. -/
def soc0 : SocRegisters :=
  { uds := List.replicate 48 7
    field_entropy := List.replicate 128 9
    doe_key := List.replicate 32 3 }

/-- A freshly constructed DOE (`Doe::new`): zero control register, no
pending action. -/
def doe0 : Doe :=
  { iv := List.replicate 16 1
    control := 0
    key_vault := vault0
    soc_reg := soc0
    op_complete_action := none }

/-- A DOE with a DeobfuscateUds command accepted (CMD = 1, DEST = 2) and its
action due at tick 1000. -/
def doeUds : Doe :=
  { doe0 with control := 9, op_complete_action := some 1000 }

/-- A DOE with a DeobfuscateFe command accepted (CMD = 2, DEST = 3) and its
action due at tick 1000. -/
def doeFe : Doe :=
  { doe0 with control := 14, op_complete_action := some 1000 }

/-- A DOE with a ClearSecrets command accepted (CMD = 3, DEST = 5) and its
action due at tick 1000. -/
def doeClear : Doe :=
  { doe0 with control := 23, op_complete_action := some 1000 }

/-- Polling without a pending timer action is the identity. -/
theorem poll_of_none {dec : DecryptFn} {s : Doe} (h : s.op_complete_action = none)
    (now : Nat) : Doe.poll dec now s = s := by
  simp [Doe.poll, timerFired, h]

/-- Polling before the pending action's deadline is the identity. -/
theorem poll_of_notYet {dec : DecryptFn} {s : Doe} {u : Nat}
    (h : s.op_complete_action = some u) (now : Nat) (hlt : now < u) :
    Doe.poll dec now s = s := by
  simp [Doe.poll, timerFired, h, Nat.not_le.mpr hlt]

/-- When the pending action has reached its deadline, polling consumes it,
dispatches the command and overwrites the control register. -/
theorem poll_fired {dec : DecryptFn} {s : Doe} {u : Nat}
    (h : s.op_complete_action = some u) {now : Nat} (hle : u ≤ now) :
    Doe.poll dec now s =
      { Doe.dispatch dec { s with op_complete_action := none } with
          control := Control.FLOW_DONE_SET } := by
  simp [Doe.poll, timerFired, h, hle]

/-- Command dispatch never touches the pending timer action. -/
theorem dispatch_op_complete_action (dec : DecryptFn) (s : Doe) :
    (Doe.dispatch dec s).op_complete_action = s.op_complete_action := by
  unfold Doe.dispatch Doe.unscramble_uds Doe.unscramble_fe Doe.clear_secrets
  split_ifs <;> rfl

/-- A state every poll leaves unchanged is unchanged by any poll sequence. -/
theorem pollSeq_of_fixed {dec : DecryptFn} {s : Doe}
    (h : ∀ t, Doe.poll dec t s = s) :
    ∀ ts : List Nat, Doe.pollSeq dec ts s = s
  | [] => rfl
  | t :: ts => by
      show Doe.pollSeq dec ts (Doe.poll dec t s) = s
      rw [h t]
      exact pollSeq_of_fixed h ts

/-- A poll sequence leaves a state without a pending action unchanged. -/
theorem pollSeq_of_none {dec : DecryptFn} {s : Doe} (h : s.op_complete_action = none)
    (ts : List Nat) : Doe.pollSeq dec ts s = s :=
  pollSeq_of_fixed (fun t => poll_of_none h t) ts

/-- A poll sequence that stays strictly before the pending deadline leaves
the state unchanged. -/
theorem pollSeq_of_notYet {dec : DecryptFn} {s : Doe} {u : Nat}
    (h : s.op_complete_action = some u) :
    ∀ ts : List Nat, (∀ x ∈ ts, x < u) → Doe.pollSeq dec ts s = s
  | [], _ => rfl
  | t :: ts, hts => by
      show Doe.pollSeq dec ts (Doe.poll dec t s) = s
      rw [poll_of_notYet h t (hts t (List.mem_cons_self t ts))]
      exact pollSeq_of_notYet h ts fun x hx => hts x (List.mem_cons_of_mem t hx)

/-- Clearing the FLOW DONE bit makes the FLOW DONE field read zero. -/
theorem flowDone_clearFlowDone (v : Nat) :
    Control.FLOW_DONE (Control.clearFlowDone v) = 0 := by
  unfold Control.FLOW_DONE Control.clearFlowDone
  omega

/-- Word write of a non-idle command: the control register takes the written
value with FLOW DONE cleared and a fresh action is scheduled. -/
theorem on_write_control_word_nonidle {val : Nat}
    (h : Control.CMD (val % 2 ^ 32) ≠ Control.CMD_IDLE) (now : Nat) (s : Doe) :
    Doe.on_write_control now RvSize.word val s =
      ({ s with
          control := Control.clearFlowDone (val % 2 ^ 32)
          op_complete_action := some (now + DOE_OP_TICKS) }, none) := by
  unfold Doe.on_write_control
  rw [if_neg (by simp), if_pos h]

/-- Word write of an idle command: the control register takes the written
value and nothing is scheduled. -/
theorem on_write_control_word_idle {val : Nat}
    (h : Control.CMD (val % 2 ^ 32) = Control.CMD_IDLE) (now : Nat) (s : Doe) :
    Doe.on_write_control now RvSize.word val s =
      ({ s with control := val % 2 ^ 32 }, none) := by
  unfold Doe.on_write_control
  rw [if_neg (by simp), if_neg (not_not_intro h)]


/-- Dispatch of a DeobfuscateUds command runs `unscramble_uds` at DEST. -/
theorem dispatch_of_uds {dec : DecryptFn} {s : Doe}
    (h : Control.CMD s.control = Control.CMD_DEOBFUSCATE_UDS) :
    Doe.dispatch dec s = s.unscramble_uds dec (Control.DEST s.control) := by
  unfold Doe.dispatch
  rw [if_pos h]

/-- Dispatch of a DeobfuscateFe command runs `unscramble_fe` at DEST. -/
theorem dispatch_of_fe {dec : DecryptFn} {s : Doe}
    (h : Control.CMD s.control = Control.CMD_DEOBFUSCATE_FE) :
    Doe.dispatch dec s = s.unscramble_fe dec (Control.DEST s.control) := by
  unfold Doe.dispatch
  rw [if_neg (by rw [h]; decide), if_pos h]

/-- Dispatch of a ClearSecrets command runs `clear_secrets`. -/
theorem dispatch_of_clear {dec : DecryptFn} {s : Doe}
    (h : Control.CMD s.control = Control.CMD_CLEAR_SECRETS) :
    Doe.dispatch dec s = s.clear_secrets := by
  unfold Doe.dispatch
  rw [if_neg (by rw [h]; decide), if_neg (by rw [h]; decide), if_pos h]

/-- Reading back the slot just written returns the written data. -/
theorem read_write_same (v : KeyVault) (i : Nat) (d : List Nat) :
    (v.write_key i d).read_key i = d := by
  simp [KeyVault.read_key, KeyVault.write_key]

/-- Reading any other slot after a write returns the old contents. -/
theorem read_write_other (v : KeyVault) {i j : Nat} (d : List Nat) (h : j ≠ i) :
    (v.write_key i d).read_key j = v.read_key j := by
  simp [KeyVault.read_key, KeyVault.write_key, h]

/-- After the timer fires, the control register holds the FLOW DONE value. -/
theorem poll_fired_control {dec : DecryptFn} {s : Doe} {u : Nat}
    (h : s.op_complete_action = some u) {now : Nat} (hle : u ≤ now) :
    (Doe.poll dec now s).control = Control.FLOW_DONE_SET := by
  simp [Doe.poll, timerFired, h, hle]

/-- After the timer fires, the key vault is the one the dispatched command
produced from the state with its action consumed. -/
theorem poll_fired_key_vault {dec : DecryptFn} {s : Doe} {u : Nat}
    (h : s.op_complete_action = some u) {now : Nat} (hle : u ≤ now) :
    (Doe.poll dec now s).key_vault =
      (Doe.dispatch dec { s with op_complete_action := none }).key_vault := by
  simp [Doe.poll, timerFired, h, hle]

/-- After the timer fires, the secret store is the one the dispatched
command produced from the state with its action consumed. -/
theorem poll_fired_soc_reg {dec : DecryptFn} {s : Doe} {u : Nat}
    (h : s.op_complete_action = some u) {now : Nat} (hle : u ≤ now) :
    (Doe.poll dec now s).soc_reg =
      (Doe.dispatch dec { s with op_complete_action := none }).soc_reg := by
  simp [Doe.poll, timerFired, h, hle]

/-- After the timer fires, no action is pending any more. -/
theorem poll_fired_op_complete_action {dec : DecryptFn} {s : Doe} {u : Nat}
    (h : s.op_complete_action = some u) {now : Nat} (hle : u ≤ now) :
    (Doe.poll dec now s).op_complete_action = none := by
  simp [Doe.poll, timerFired, h, hle, dispatch_op_complete_action]

/-- C1: when the DeobfuscateUds command's timer fires, the DOE fetches the
48-byte obfuscated device secret and the deobfuscation key from the Secret
Store, decrypts the ciphertext with the IV buffer's current contents, and
writes the 48-byte plaintext zero-padded to the 64-byte vault slot width
into Key Vault slot DEST, and into no other slot. -/
theorem doe_deobfuscate_uds_correct (dec : DecryptFn) (s : Doe) (u now : Nat)
    (hact : s.op_complete_action = some u) (hle : u ≤ now)
    (hcmd : Control.CMD s.control = Control.CMD_DEOBFUSCATE_UDS)
    (hlen : s.soc_reg.uds.length = 48)
    (hdec : (dec s.soc_reg.doe_key s.iv s.soc_reg.uds).length = 48) :
    (Doe.poll dec now s).key_vault.read_key (Control.DEST s.control) =
        dec s.soc_reg.doe_key s.iv s.soc_reg.uds ++ List.replicate 16 0 ∧
      ∀ j, j ≠ Control.DEST s.control →
        (Doe.poll dec now s).key_vault.read_key j = s.key_vault.read_key j := by
  have hvault : (Doe.poll dec now s).key_vault =
      s.key_vault.write_key (Control.DEST s.control)
        (decryptInto dec s.soc_reg.doe_key s.iv s.soc_reg.uds
          (List.replicate 64 0) s.soc_reg.uds.length) := by
    rw [poll_fired_key_vault hact hle, dispatch_of_uds (by simpa using hcmd)]
    simp [Doe.unscramble_uds]
  have hplain : decryptInto dec s.soc_reg.doe_key s.iv s.soc_reg.uds
      (List.replicate 64 0) s.soc_reg.uds.length =
      dec s.soc_reg.doe_key s.iv s.soc_reg.uds ++ List.replicate 16 0 := by
    unfold decryptInto
    rw [hlen, List.take_of_length_le (le_of_eq hdec), List.drop_replicate]
  refine ⟨?_, ?_⟩
  · rw [hvault, read_write_same, hplain]
  · intro j hj
    rw [hvault, read_write_other _ _ hj]

/-- Witness for C1 at a concrete state: CMD = DeobfuscateUds, DEST = 2, a
sample decryption function, fixture secrets, timer due at tick 1000. -/
theorem doe_deobfuscate_uds_correct_witness :
    (Doe.poll decSample 1000 doeUds).key_vault.read_key (Control.DEST doeUds.control) =
        decSample doeUds.soc_reg.doe_key doeUds.iv doeUds.soc_reg.uds ++
          List.replicate 16 0 ∧
      ∀ j, j ≠ Control.DEST doeUds.control →
        (Doe.poll decSample 1000 doeUds).key_vault.read_key j =
          doeUds.key_vault.read_key j :=
  doe_deobfuscate_uds_correct decSample doeUds 1000 1000 rfl (by decide) (by decide)
    (by decide) (by decide)

/-- C5: when the DeobfuscateFe command's timer fires, the DOE decrypts the
64-byte obfuscated field-entropy value out of the 128-byte Secret Store
field with the deobfuscation key and the IV buffer's current contents and
writes the 64-byte plaintext, filling the full slot width with no padding,
into Key Vault slot DEST (and into no other slot). -/
theorem doe_deobfuscate_fe_correct (dec : DecryptFn) (s : Doe) (u now : Nat)
    (hact : s.op_complete_action = some u) (hle : u ≤ now)
    (hcmd : Control.CMD s.control = Control.CMD_DEOBFUSCATE_FE)
    (hlen : s.soc_reg.field_entropy.length = 128)
    (hdec : (dec s.soc_reg.doe_key s.iv (s.soc_reg.field_entropy.take 64)).length = 64) :
    (Doe.poll dec now s).key_vault.read_key (Control.DEST s.control) =
        dec s.soc_reg.doe_key s.iv (s.soc_reg.field_entropy.take 64) ∧
      ((Doe.poll dec now s).key_vault.read_key (Control.DEST s.control)).length = 64 ∧
      ∀ j, j ≠ Control.DEST s.control →
        (Doe.poll dec now s).key_vault.read_key j = s.key_vault.read_key j := by
  have hvault : (Doe.poll dec now s).key_vault =
      s.key_vault.write_key (Control.DEST s.control)
        (decryptInto dec s.soc_reg.doe_key s.iv (s.soc_reg.field_entropy.take 64)
          (List.replicate 64 0) 64) := by
    rw [poll_fired_key_vault hact hle, dispatch_of_fe (by simpa using hcmd)]
    simp [Doe.unscramble_fe]
  have hplain : decryptInto dec s.soc_reg.doe_key s.iv (s.soc_reg.field_entropy.take 64)
      (List.replicate 64 0) 64 =
      dec s.soc_reg.doe_key s.iv (s.soc_reg.field_entropy.take 64) := by
    unfold decryptInto
    rw [List.take_of_length_le (le_of_eq hdec), List.drop_replicate]
    simp
  refine ⟨?_, ?_, ?_⟩
  · rw [hvault, read_write_same, hplain]
  · rw [hvault, read_write_same, hplain, hdec]
  · intro j hj
    rw [hvault, read_write_other _ _ hj]

set_option maxRecDepth 8000 in
/-- Witness for C5 at a concrete state: CMD = DeobfuscateFe, DEST = 3, a
sample decryption function, fixture secrets, timer due at tick 1000. -/
theorem doe_deobfuscate_fe_correct_witness :
    (Doe.poll decSample 1000 doeFe).key_vault.read_key (Control.DEST doeFe.control) =
        decSample doeFe.soc_reg.doe_key doeFe.iv (doeFe.soc_reg.field_entropy.take 64) ∧
      ((Doe.poll decSample 1000 doeFe).key_vault.read_key
          (Control.DEST doeFe.control)).length = 64 ∧
      ∀ j, j ≠ Control.DEST doeFe.control →
        (Doe.poll decSample 1000 doeFe).key_vault.read_key j =
          doeFe.key_vault.read_key j :=
  doe_deobfuscate_fe_correct decSample doeFe 1000 1000 rfl (by decide) (by decide)
    (by decide) (by decide)

/-- C6: when the ClearSecrets command's timer fires, the Secret Store's
device secret, deobfuscation key and field entropy are all zeroed whatever
the prior store held, the Key Vault is untouched (DEST is ignored), and a
ClearSecrets run fired a second time from any state yields exactly the same
zeroed store. -/
theorem doe_clear_secrets_correct (dec : DecryptFn) (s : Doe) (u now : Nat)
    (hact : s.op_complete_action = some u) (hle : u ≤ now)
    (hcmd : Control.CMD s.control = Control.CMD_CLEAR_SECRETS) :
    (Doe.poll dec now s).soc_reg.uds = List.replicate 48 0 ∧
      (Doe.poll dec now s).soc_reg.doe_key = List.replicate 32 0 ∧
      (Doe.poll dec now s).soc_reg.field_entropy = List.replicate 128 0 ∧
      (Doe.poll dec now s).key_vault = s.key_vault ∧
      ∀ (s2 : Doe) (u2 now2 : Nat), s2.op_complete_action = some u2 → u2 ≤ now2 →
        Control.CMD s2.control = Control.CMD_CLEAR_SECRETS →
        (Doe.poll dec now2 s2).soc_reg = (Doe.poll dec now s).soc_reg := by
  have hsoc : ∀ (s3 : Doe) (u3 now3 : Nat), s3.op_complete_action = some u3 →
      u3 ≤ now3 → Control.CMD s3.control = Control.CMD_CLEAR_SECRETS →
      (Doe.poll dec now3 s3).soc_reg = SocRegisters.clear_secrets s3.soc_reg := by
    intro s3 u3 now3 h3 hle3 hcmd3
    rw [poll_fired_soc_reg h3 hle3, dispatch_of_clear (by simpa using hcmd3)]
    simp [Doe.clear_secrets]
  have hkv : (Doe.poll dec now s).key_vault = s.key_vault := by
    rw [poll_fired_key_vault hact hle, dispatch_of_clear (by simpa using hcmd)]
    simp [Doe.clear_secrets]
  refine ⟨?_, ?_, ?_, hkv, ?_⟩
  · rw [hsoc s u now hact hle hcmd]; rfl
  · rw [hsoc s u now hact hle hcmd]; rfl
  · rw [hsoc s u now hact hle hcmd]; rfl
  · intro s2 u2 now2 h2 hle2 hcmd2
    rw [hsoc s2 u2 now2 h2 hle2 hcmd2, hsoc s u now hact hle hcmd]
    rfl

/-- Witness for C6 at a concrete state: CMD = ClearSecrets, DEST = 5,
non-zero fixture secrets, timer due at tick 1000. -/
theorem doe_clear_secrets_correct_witness :
    (Doe.poll decSample 1000 doeClear).soc_reg.uds = List.replicate 48 0 ∧
      (Doe.poll decSample 1000 doeClear).soc_reg.doe_key = List.replicate 32 0 ∧
      (Doe.poll decSample 1000 doeClear).soc_reg.field_entropy = List.replicate 128 0 ∧
      (Doe.poll decSample 1000 doeClear).key_vault = doeClear.key_vault ∧
      ∀ (s2 : Doe) (u2 now2 : Nat), s2.op_complete_action = some u2 → u2 ≤ now2 →
        Control.CMD s2.control = Control.CMD_CLEAR_SECRETS →
        (Doe.poll decSample now2 s2).soc_reg =
          (Doe.poll decSample 1000 doeClear).soc_reg :=
  doe_clear_secrets_correct decSample doeClear 1000 1000 rfl (by decide) (by decide)

/-- C9: polling with no fired action (none pending, or the pending deadline
not yet reached) leaves the DOE, Key Vault and Secret Store unchanged; once
a fired action has been consumed by a poll the handle is cleared and every
later poll is the identity, so the consumed action's operation is never
re-executed and FLOW DONE is never set again for it. -/
theorem doe_poll_idempotent_no_refire (dec : DecryptFn) (s : Doe) (now : Nat) :
    (s.op_complete_action = none → Doe.poll dec now s = s) ∧
      (∀ u, s.op_complete_action = some u → now < u → Doe.poll dec now s = s) ∧
      (∀ u, s.op_complete_action = some u → u ≤ now →
        (Doe.poll dec now s).op_complete_action = none ∧
        ∀ t2, Doe.poll dec t2 (Doe.poll dec now s) = Doe.poll dec now s) := by
  refine ⟨fun h => poll_of_none h now, fun u h hlt => poll_of_notYet h now hlt, ?_⟩
  intro u h hle
  have hnone : (Doe.poll dec now s).op_complete_action = none :=
    poll_fired_op_complete_action h hle
  exact ⟨hnone, fun t2 => poll_of_none hnone t2⟩

/-- Witness for C9 at a concrete state: consuming the action fired at tick
1000 clears the handle and every later poll is the identity. -/
theorem doe_poll_idempotent_no_refire_witness :
    (Doe.poll decSample 1000 doeUds).op_complete_action = none ∧
      ∀ t2, Doe.poll decSample t2 (Doe.poll decSample 1000 doeUds) =
        Doe.poll decSample 1000 doeUds :=
  (doe_poll_idempotent_no_refire decSample doeUds 1000).2.2 1000 rfl (by decide)

/-- C10: when the timer fires and the operation completes, the whole control
register is overwritten with only the FLOW DONE bit set (raw value 0x20 =
32), so a subsequent read returns CMD = Idle and DEST = 0 regardless of the
command and destination that were written. -/
theorem doe_completion_resets_control (dec : DecryptFn) (s : Doe) (u now : Nat)
    (hact : s.op_complete_action = some u) (hle : u ≤ now) :
    (Doe.poll dec now s).control = 32 ∧
      Control.CMD (Doe.poll dec now s).control = Control.CMD_IDLE ∧
      Control.DEST (Doe.poll dec now s).control = 0 ∧
      Control.FLOW_DONE (Doe.poll dec now s).control = 1 := by
  have h32 : (Doe.poll dec now s).control = 32 := poll_fired_control hact hle
  exact ⟨h32, by rw [h32]; decide, by rw [h32]; decide, by rw [h32]; decide⟩

/-- Witness for C10 at a concrete state: CMD = ClearSecrets with DEST = 5
was written, yet after completion the control register reads 0x20. -/
theorem doe_completion_resets_control_witness :
    (Doe.poll decSample 1500 doeClear).control = 32 ∧
      Control.CMD (Doe.poll decSample 1500 doeClear).control = Control.CMD_IDLE ∧
      Control.DEST (Doe.poll decSample 1500 doeClear).control = 0 ∧
      Control.FLOW_DONE (Doe.poll decSample 1500 doeClear).control = 1 :=
  doe_completion_resets_control decSample doeClear 1000 1500 rfl (by decide)

/-- C2: accepting a non-idle word-sized command clears FLOW DONE at once;
polling at any times strictly before 1000 ticks after acceptance leaves the
state (hence FLOW DONE = 0) unchanged; polling at any time at least 1000
ticks after acceptance, after any such early polls, reads FLOW DONE = 1. -/
theorem doe_completion_latency (dec : DecryptFn) (s : Doe) (val now : Nat)
    (hcmd : Control.CMD (val % 2 ^ 32) ≠ Control.CMD_IDLE) :
    (Doe.on_write_control now RvSize.word val s).2 = none ∧
      Control.FLOW_DONE (Doe.on_write_control now RvSize.word val s).1.control = 0 ∧
      (∀ ts : List Nat, (∀ x ∈ ts, x < now + DOE_OP_TICKS) →
        Doe.pollSeq dec ts (Doe.on_write_control now RvSize.word val s).1 =
          (Doe.on_write_control now RvSize.word val s).1) ∧
      ∀ (ts : List Nat) (now2 : Nat), (∀ x ∈ ts, x < now + DOE_OP_TICKS) →
        now + DOE_OP_TICKS ≤ now2 →
        Control.FLOW_DONE
          (Doe.poll dec now2
            (Doe.pollSeq dec ts (Doe.on_write_control now RvSize.word val s).1)).control
          = 1 := by
  rw [on_write_control_word_nonidle hcmd]
  have hpend : ({ s with
      control := Control.clearFlowDone (val % 2 ^ 32)
      op_complete_action := some (now + DOE_OP_TICKS) } : Doe).op_complete_action =
      some (now + DOE_OP_TICKS) := rfl
  refine ⟨rfl, flowDone_clearFlowDone (val % 2 ^ 32), ?_, ?_⟩
  · intro ts hts
    exact pollSeq_of_notYet hpend ts hts
  · intro ts now2 hts hle2
    rw [pollSeq_of_notYet hpend ts hts, poll_fired_control hpend hle2]
    decide

/-- Witness for C2 at a concrete state: a DeobfuscateUds command (value 9)
written at tick 0. -/
theorem doe_completion_latency_witness :
    (Doe.on_write_control 0 RvSize.word 9 doe0).2 = none ∧
      Control.FLOW_DONE (Doe.on_write_control 0 RvSize.word 9 doe0).1.control = 0 ∧
      (∀ ts : List Nat, (∀ x ∈ ts, x < 0 + DOE_OP_TICKS) →
        Doe.pollSeq decSample ts (Doe.on_write_control 0 RvSize.word 9 doe0).1 =
          (Doe.on_write_control 0 RvSize.word 9 doe0).1) ∧
      ∀ (ts : List Nat) (now2 : Nat), (∀ x ∈ ts, x < 0 + DOE_OP_TICKS) →
        0 + DOE_OP_TICKS ≤ now2 →
        Control.FLOW_DONE
          (Doe.poll decSample now2
            (Doe.pollSeq decSample ts (Doe.on_write_control 0 RvSize.word 9 doe0).1)).control
          = 1 :=
  doe_completion_latency decSample doe0 9 0 (by decide)

/-- C3: a write to CONTROL with any size other than word fails with a store
access fault and leaves every component of the DOE state (control register,
IV buffer, pending action, Key Vault and Secret Store) exactly as before. -/
theorem doe_control_write_nonword_faults (size : RvSize) (val now : Nat) (s : Doe)
    (hsize : size ≠ RvSize.word) :
    Doe.on_write_control now size val s = (s, some BusError.StoreAccessFault) ∧
      (Doe.on_write_control now size val s).1.control = s.control ∧
      (Doe.on_write_control now size val s).1.iv = s.iv ∧
      (Doe.on_write_control now size val s).1.op_complete_action =
        s.op_complete_action ∧
      (Doe.on_write_control now size val s).1.key_vault = s.key_vault ∧
      (Doe.on_write_control now size val s).1.soc_reg = s.soc_reg := by
  have h : Doe.on_write_control now size val s = (s, some BusError.StoreAccessFault) := by
    unfold Doe.on_write_control
    rw [if_pos hsize]
  exact ⟨h, by rw [h], by rw [h], by rw [h], by rw [h], by rw [h]⟩

/-- Witness for C3 at a concrete state: a byte-sized write of a non-idle
command value is rejected without touching the state. -/
theorem doe_control_write_nonword_faults_witness :
    Doe.on_write_control 0 RvSize.byte 9 doe0 = (doe0, some BusError.StoreAccessFault) ∧
      (Doe.on_write_control 0 RvSize.byte 9 doe0).1.control = doe0.control ∧
      (Doe.on_write_control 0 RvSize.byte 9 doe0).1.iv = doe0.iv ∧
      (Doe.on_write_control 0 RvSize.byte 9 doe0).1.op_complete_action =
        doe0.op_complete_action ∧
      (Doe.on_write_control 0 RvSize.byte 9 doe0).1.key_vault = doe0.key_vault ∧
      (Doe.on_write_control 0 RvSize.byte 9 doe0).1.soc_reg = doe0.soc_reg :=
  doe_control_write_nonword_faults RvSize.byte 9 0 doe0 (by decide)

/-- C4 counterexample: from a freshly constructed DOE, a word write of 0 to
CONTROL (CMD = Idle, FLOW DONE bit clear) is accepted, yet no amount of
clock advancing and polling ever makes FLOW DONE read 1: the write schedules
nothing, so FLOW DONE stays 0 forever. -/
theorem doe_idle_write_never_done :
    Control.CMD (0 % 2 ^ 32) = Control.CMD_IDLE ∧
      (Doe.on_write_control 0 RvSize.word 0 doe0).2 = none ∧
      Doe.neverDone decSample (Doe.on_write_control 0 RvSize.word 0 doe0).1 := by
  refine ⟨rfl, rfl, ?_⟩
  intro ts
  have hnone : (Doe.on_write_control 0 RvSize.word 0 doe0).1.op_complete_action =
      none := rfl
  rw [pollSeq_of_none hnone ts]
  rfl

/-- C4 (amended): a word-sized write to CONTROL whose CMD field is Idle is
accepted, stores the written value in CONTROL, schedules nothing (the
pending action is exactly what it was), and leaves the Key Vault and Secret
Store unchanged; if no action was pending, polling afterwards never changes
the state at all, so FLOW DONE only ever reads bit 5 of the written value. -/
theorem doe_idle_write_noop (dec : DecryptFn) (s : Doe) (val now : Nat)
    (hcmd : Control.CMD (val % 2 ^ 32) = Control.CMD_IDLE) :
    (Doe.on_write_control now RvSize.word val s).2 = none ∧
      (Doe.on_write_control now RvSize.word val s).1.control = val % 2 ^ 32 ∧
      (Doe.on_write_control now RvSize.word val s).1.key_vault = s.key_vault ∧
      (Doe.on_write_control now RvSize.word val s).1.soc_reg = s.soc_reg ∧
      (Doe.on_write_control now RvSize.word val s).1.op_complete_action =
        s.op_complete_action ∧
      (s.op_complete_action = none →
        ∀ ts : List Nat,
          Doe.pollSeq dec ts (Doe.on_write_control now RvSize.word val s).1 =
            (Doe.on_write_control now RvSize.word val s).1) := by
  rw [on_write_control_word_idle hcmd]
  refine ⟨rfl, rfl, rfl, rfl, rfl, ?_⟩
  intro hnone ts
  refine pollSeq_of_none ?_ ts
  exact hnone

/-- Witness for the amended C4 at a concrete state: an idle write of value
64 (CMD = 0) to a fresh DOE. -/
theorem doe_idle_write_noop_witness :
    (Doe.on_write_control 0 RvSize.word 64 doe0).2 = none ∧
      (Doe.on_write_control 0 RvSize.word 64 doe0).1.control = 64 % 2 ^ 32 ∧
      (Doe.on_write_control 0 RvSize.word 64 doe0).1.key_vault = doe0.key_vault ∧
      (Doe.on_write_control 0 RvSize.word 64 doe0).1.soc_reg = doe0.soc_reg ∧
      (Doe.on_write_control 0 RvSize.word 64 doe0).1.op_complete_action =
        doe0.op_complete_action ∧
      (doe0.op_complete_action = none →
        ∀ ts : List Nat,
          Doe.pollSeq decSample ts (Doe.on_write_control 0 RvSize.word 64 doe0).1 =
            (Doe.on_write_control 0 RvSize.word 64 doe0).1) :=
  doe_idle_write_noop decSample doe0 64 0 (by decide)

/-- C7: the IV buffer is read at decrypt time, not copied at command-issue
time.  If a deobfuscation command is accepted while the buffer holds iv1 and
the buffer is then overwritten with iv2 before the timer fires, polling
produces exactly the vault contents of a run where iv2 was in the buffer at
command-accept time. -/
theorem doe_iv_read_at_decrypt_time (dec : DecryptFn) (s : Doe)
    (iv1 iv2 : List Nat) (val now tf : Nat)
    (hcmd : Control.CMD (val % 2 ^ 32) = Control.CMD_DEOBFUSCATE_UDS ∨
      Control.CMD (val % 2 ^ 32) = Control.CMD_DEOBFUSCATE_FE) :
    (Doe.poll dec tf
        { (Doe.on_write_control now RvSize.word val { s with iv := iv1 }).1 with
            iv := iv2 }).key_vault =
      (Doe.poll dec tf
        (Doe.on_write_control now RvSize.word val { s with iv := iv2 }).1).key_vault := by
  have hne : Control.CMD (val % 2 ^ 32) ≠ Control.CMD_IDLE := by
    rcases hcmd with h | h <;> rw [h] <;> decide
  rw [on_write_control_word_nonidle hne, on_write_control_word_nonidle hne]

/-- Witness for C7 at a concrete state: a DeobfuscateUds command issued at
tick 0 under IV of all zeros, with the buffer rewritten to all fives before
the fire at tick 1000, under an IV-sensitive sample decryption function. -/
theorem doe_iv_read_at_decrypt_time_witness :
    (Doe.poll decSampleIv 1000
        { (Doe.on_write_control 0 RvSize.word 9
            { doe0 with iv := List.replicate 16 0 }).1 with
            iv := List.replicate 16 5 }).key_vault =
      (Doe.poll decSampleIv 1000
        (Doe.on_write_control 0 RvSize.word 9
          { doe0 with iv := List.replicate 16 5 }).1).key_vault :=
  doe_iv_read_at_decrypt_time decSampleIv doe0 (List.replicate 16 0)
    (List.replicate 16 5) 9 0 1000 (Or.inl (by decide))

/-- C8: the pending action slot holds at most one action (it is an option),
and accepting a non-idle command while an action is pending replaces it with
one due exactly 1000 ticks after the second write; any poll strictly before
that new deadline (in particular at the first command's original deadline,
when it is earlier) does nothing, so the first operation never executes at
its originally scheduled time. -/
theorem doe_reschedule_last_write_wins (dec : DecryptFn) (s : Doe)
    (t1 val now : Nat) (hpend : s.op_complete_action = some t1)
    (hcmd : Control.CMD (val % 2 ^ 32) ≠ Control.CMD_IDLE) :
    (Doe.on_write_control now RvSize.word val s).2 = none ∧
      (Doe.on_write_control now RvSize.word val s).1.op_complete_action =
        some (now + DOE_OP_TICKS) ∧
      ∀ t2, t2 < now + DOE_OP_TICKS →
        Doe.poll dec t2 (Doe.on_write_control now RvSize.word val s).1 =
          (Doe.on_write_control now RvSize.word val s).1 := by
  rw [on_write_control_word_nonidle hcmd]
  exact ⟨rfl, rfl, fun t2 h2 => poll_of_notYet rfl t2 h2⟩

/-- Witness for C8 at a concrete state: a DeobfuscateFe command (value 14)
written at tick 500 while a DeobfuscateUds action is still pending for tick
1000; the new deadline is tick 1500 and polling at tick 1000 does nothing. -/
theorem doe_reschedule_last_write_wins_witness :
    (Doe.on_write_control 500 RvSize.word 14 doeUds).2 = none ∧
      (Doe.on_write_control 500 RvSize.word 14 doeUds).1.op_complete_action =
        some (500 + DOE_OP_TICKS) ∧
      ∀ t2, t2 < 500 + DOE_OP_TICKS →
        Doe.poll decSample t2 (Doe.on_write_control 500 RvSize.word 14 doeUds).1 =
          (Doe.on_write_control 500 RvSize.word 14 doeUds).1 :=
  doe_reschedule_last_write_wins decSample doeUds 1000 14 500 rfl (by decide)

end Caliptra
